import Mathlib

/-!
Verification development for the asdl_adt ADT builder
(`src/asdl_adt/adt.py`, `src/asdl_adt/validators.py`).

The Python runtime values that can flow through generated constructors are
modelled by the inductive type `PyVal`.  Python's `==` (as used by the
generated `__eq__` functions and by dictionary key lookup) is modelled by
`pyEq`, and Python's `hash` by `pyHash`.  Floats are modelled by the
rational number they denote (every finite float is a dyadic rational);
NaN/infinity payloads are not modelled, and none of the properties proved
here depend on them.
-/

set_option linter.unusedVariables false

namespace AsdlAdt

/-- Model of a Python runtime value as seen by the generated classes:
`None`, the built-in scalars (`bool`, `int`, `float`, `str`), lists, and
instances of generated classes (`vInst cls fields` holds the concrete
class tag and the ordered field values). -/
inductive PyVal : Type where
  | vNone : PyVal
  | vBool (b : Bool) : PyVal
  | vInt (n : Int) : PyVal
  | vFloat (q : ℚ) : PyVal
  | vStr (s : String) : PyVal
  | vList (xs : List PyVal) : PyVal
  | vInst (cls : String) (fields : List PyVal) : PyVal

/-- The numeric value of a Python number, if the value is one.  Python's
`bool` is a subtype of `int` (`True == 1`), and `1 == 1.0`; all three
numeric kinds compare and hash through their mathematical value. -/
def toNumQ : PyVal → Option ℚ
  | .vBool b => some (if b then 1 else 0)
  | .vInt n => some (n : ℚ)
  | .vFloat q => some q
  | _ => none

mutual

/-- Model of Python `==` on the values above.  Two numbers compare by
numeric value; strings, `None`, lists and generated instances compare
structurally (a generated `__eq__` is `type(self) is type(o) and
self.f == o.f and ...`, see `create_eqfn`, adt.py lines 140-151). -/
def pyEq : PyVal → PyVal → Bool
  | .vNone, .vNone => true
  | .vStr a, .vStr b => decide (a = b)
  | .vList a, .vList b => pyEqList a b
  | .vInst c a, .vInst d b => decide (c = d) && pyEqList a b
  | x, y =>
    match toNumQ x, toNumQ y with
    | some a, some b => decide (a = b)
    | _, _ => false

/-- Element-wise, order-sensitive list equality, as Python list `==`. -/
def pyEqList : List PyVal → List PyVal → Bool
  | [], [] => true
  | a :: as', b :: bs' => pyEq a b && pyEqList as' bs'
  | _, _ => false

end

/-- Structural induction principle for `PyVal` giving the inductive
hypothesis on every member of a nested list. -/
theorem pyVal_ind (P : PyVal → Prop)
    (h0 : P .vNone) (h1 : ∀ b, P (.vBool b)) (h2 : ∀ n, P (.vInt n))
    (h3 : ∀ q, P (.vFloat q)) (h4 : ∀ s, P (.vStr s))
    (h5 : ∀ xs, (∀ x ∈ xs, P x) → P (.vList xs))
    (h6 : ∀ c xs, (∀ x ∈ xs, P x) → P (.vInst c xs)) : ∀ v, P v
  | .vNone => h0
  | .vBool b => h1 b
  | .vInt n => h2 n
  | .vFloat q => h3 q
  | .vStr s => h4 s
  | .vList xs => h5 xs (fun x hx => pyVal_ind P h0 h1 h2 h3 h4 h5 h6 x)
  | .vInst c xs => h6 c xs (fun x hx => pyVal_ind P h0 h1 h2 h3 h4 h5 h6 x)
decreasing_by
  all_goals simp_wf
  all_goals have h9 := List.sizeOf_lt_of_mem hx
  all_goals omega

mutual

/-- Canonical form of a value under Python `==`: every number is replaced
by its numeric value.  `pyEq x y` holds exactly when `canon x = canon y`
(`pyEq_canon`). -/
def canon : PyVal → PyVal
  | .vNone => .vNone
  | .vBool b => .vFloat (if b then 1 else 0)
  | .vInt n => .vFloat (n : ℚ)
  | .vFloat q => .vFloat q
  | .vStr s => .vStr s
  | .vList xs => .vList (canonList xs)
  | .vInst c fs => .vInst c (canonList fs)

/-- Pointwise canonicalization of a list of values. -/
def canonList : List PyVal → List PyVal
  | [] => []
  | x :: xs => canon x :: canonList xs

end

theorem pyEqList_canon (xs : List PyVal)
    (ih : ∀ x ∈ xs, ∀ y, pyEq x y = true ↔ canon x = canon y) :
    ∀ ys, pyEqList xs ys = true ↔ canonList xs = canonList ys := by
  induction xs with
  | nil =>
    intro ys
    cases ys <;> simp [pyEqList, canonList]
  | cons a as' ihl =>
    intro ys
    cases ys with
    | nil => simp [pyEqList, canonList]
    | cons b bs' =>
      have ha := ih a (by simp)
      have has : ∀ x ∈ as', ∀ y, pyEq x y = true ↔ canon x = canon y :=
        fun x hx => ih x (by simp [hx])
      simp only [pyEqList, canonList, Bool.and_eq_true, List.cons.injEq]
      rw [ha b, ihl has bs']

/-- Python `==` holds exactly when both sides have the same canonical
form. -/
theorem pyEq_canon : ∀ x y : PyVal, pyEq x y = true ↔ canon x = canon y := by
  intro x
  induction x using pyVal_ind with
  | h0 => intro y; cases y <;> simp [pyEq, canon, toNumQ]
  | h1 b =>
    intro y
    cases y <;> cases b <;> simp [pyEq, canon, toNumQ]
  | h2 n =>
    intro y
    cases y with
    | vBool b => cases b <;> simp [pyEq, canon, toNumQ]
    | vInt m => simp [pyEq, canon, toNumQ]
    | vFloat q => simp [pyEq, canon, toNumQ]
    | _ => simp [pyEq, canon, toNumQ]
  | h3 q =>
    intro y
    cases y with
    | vBool b => cases b <;> simp [pyEq, canon, toNumQ, eq_comm]
    | vInt m => simp [pyEq, canon, toNumQ, eq_comm]
    | vFloat r => simp [pyEq, canon, toNumQ]
    | _ => simp [pyEq, canon, toNumQ]
  | h4 s => intro y; cases y <;> simp [pyEq, canon, toNumQ]
  | h5 xs ih =>
    intro y
    cases y with
    | vList ys => simpa [pyEq, canon] using pyEqList_canon xs ih ys
    | _ => simp [pyEq, canon, toNumQ]
  | h6 c xs ih =>
    intro y
    cases y with
    | vInst d ys =>
      simp only [pyEq, canon, Bool.and_eq_true, decide_eq_true_eq, PyVal.vInst.injEq]
      rw [pyEqList_canon xs ih ys]
    | _ => simp [pyEq, canon, toNumQ]

theorem pyEq_refl (v : PyVal) : pyEq v v = true :=
  (pyEq_canon v v).mpr rfl

theorem pyEq_symm {x y : PyVal} (h : pyEq x y = true) : pyEq y x = true :=
  (pyEq_canon y x).mpr ((pyEq_canon x y).mp h).symm

theorem pyEq_trans {x y z : PyVal} (h1 : pyEq x y = true)
    (h2 : pyEq y z = true) : pyEq x z = true :=
  (pyEq_canon x z).mpr (((pyEq_canon x y).mp h1).trans ((pyEq_canon y z).mp h2))

/-- List equality is the pairwise lifting of `pyEq`, order-sensitively. -/
theorem pyEqList_iff_forall₂ : ∀ xs ys : List PyVal,
    pyEqList xs ys = true ↔ List.Forall₂ (fun a b => pyEq a b = true) xs ys := by
  intro xs
  induction xs with
  | nil => intro ys; cases ys <;> simp [pyEqList]
  | cons a as' ih =>
    intro ys
    cases ys with
    | nil => simp [pyEqList]
    | cons b bs' => simp [pyEqList, List.forall₂_cons, ih bs']

/-! ### Hash model

`create_hashfn` (adt.py lines 153-161) generates
`def C_hash(self): return hash((type(self), self.f1, ..., self.fn))`.
We model Python `hash` as a partial function: lists are unhashable
(`hash([..])` raises `TypeError`), numbers hash through their numeric
value (CPython guarantees `hash(True) == hash(1) == hash(1.0)`), and a
tuple hashes as a combination of its components' hashes.  The concrete
mixing functions below stand in for CPython's; only their
well-definedness as functions of the (canonical) value matters. -/

/-- Stand-in for CPython's numeric hash, a function of the numeric value. -/
def numHash (q : ℚ) : Int := q.num + (q.den : Int) * 1000003

/-- Stand-in for CPython's string hash, a function of the string. -/
def strHash (s : String) : Int :=
  s.foldl (fun a c => a * 31 + (c.toNat : Int)) 7

/-- Stand-in for CPython's tuple hash, a function of the component hashes. -/
def tupleHash (hs : List Int) : Int :=
  hs.foldl (fun a h => a * 1000003 + h) 3527539

mutual

/-- Model of Python `hash`: `none` models "raises TypeError: unhashable".
A generated instance hashes as the tuple `(type(self), f1, ..., fn)`
(`create_hashfn`); it is unhashable iff some field is (e.g. a sequence
field, which holds a list). -/
def pyHash : PyVal → Option Int
  | .vNone => some 0
  | .vBool b => some (numHash (if b then 1 else 0))
  | .vInt n => some (numHash (n : ℚ))
  | .vFloat q => some (numHash q)
  | .vStr s => some (strHash s)
  | .vList _ => none
  | .vInst c fs =>
    match pyHashList fs with
    | some hs => some (tupleHash (strHash c :: hs))
    | none => none

/-- Hashes of a list of values; `none` if any element is unhashable. -/
def pyHashList : List PyVal → Option (List Int)
  | [] => some []
  | x :: xs =>
    match pyHash x, pyHashList xs with
    | some h, some hs => some (h :: hs)
    | _, _ => none

end

theorem pyHashList_canon (fs : List PyVal)
    (ih : ∀ x ∈ fs, ∀ y, canon x = canon y → pyHash x = pyHash y) :
    ∀ gs, canonList fs = canonList gs → pyHashList fs = pyHashList gs := by
  induction fs with
  | nil => intro gs h; cases gs <;> simp_all [canonList, pyHashList]
  | cons a as' ihl =>
    intro gs h
    cases gs with
    | nil => simp [canonList] at h
    | cons b bs' =>
      simp only [canonList, List.cons.injEq] at h
      have h1 := ih a (by simp) b h.1
      have h2 := ihl (fun x hx => ih x (by simp [hx])) bs' h.2
      simp [pyHashList, h1, h2]

/-- Values with the same canonical form have the same hash behaviour. -/
theorem pyHash_canon : ∀ x y : PyVal, canon x = canon y → pyHash x = pyHash y := by
  intro x
  induction x using pyVal_ind with
  | h0 => intro y h; cases y <;> simp_all [canon, pyHash]
  | h1 b =>
    intro y h
    cases y <;> simp_all [canon, pyHash]
  | h2 n =>
    intro y h
    cases y <;> simp_all [canon, pyHash]
  | h3 q =>
    intro y h
    cases y <;> simp_all [canon, pyHash]
  | h4 s => intro y h; cases y <;> simp_all [canon, pyHash]
  | h5 xs ih => intro y h; cases y <;> simp_all [canon, pyHash]
  | h6 c xs ih =>
    intro y h
    cases y <;> simp_all [canon, pyHash]
    case vInst d ys =>
      rw [pyHashList_canon xs ih ys h.2]

/-! ### Errors, built-in checks, and the generated constructors

Embedding of `_builtin_checks`, `_build_checks`, `basic_check` /
`opt_check` / `seq_check`, `create_initfn` and the class construction of
`_build_classes` (adt.py). -/

/-- The exceptions the embedded code can raise.  `validationError`
models `asdl_adt.validators.ValidationError{expected, actual}`
(validators.py lines 8-25); the generated checks of adt.py raise plain
`typeError` messages instead. -/
inductive PyError : Type where
  | typeError (msg : String)
  | assertionError (msg : String)
  | keyError (key : String)
  | attributeError (msg : String)
  | validationError (expected actual : String)
  | valueError (msg : String)
deriving DecidableEq

/-- Python truthiness of a value, as tested by `if not CHK[...](x)`. -/
def isTruthy : PyVal → Bool
  | .vNone => false
  | .vBool b => b
  | .vInt n => decide (n ≠ 0)
  | .vFloat q => decide (q ≠ 0)
  | .vStr s => decide (s ≠ "")
  | .vList xs => !xs.isEmpty
  | .vInst _ _ => true

/-- From `_builtin_checks` (adt.py lines 36-42): `isinstance(x, str)`. -/
def check_string : PyVal → Bool := fun x =>
  match x with
  | .vStr _ => true
  | _ => false

/-- From `_builtin_checks`: `isinstance(x, int)`.  Python's `bool` is a
subclass of `int`, so this accepts bool values as well. -/
def check_int : PyVal → Bool := fun x =>
  match x with
  | .vInt _ => true
  | .vBool _ => true
  | _ => false

/-- From `_builtin_checks`: `x is not None`. -/
def check_object : PyVal → Bool := fun x =>
  match x with
  | .vNone => false
  | _ => true

/-- From `_builtin_checks`: `isinstance(x, float)`. -/
def check_float : PyVal → Bool := fun x =>
  match x with
  | .vFloat _ => true
  | _ => false

/-- From `_builtin_checks`: `isinstance(x, bool)`. -/
def check_bool : PyVal → Bool := fun x =>
  match x with
  | .vBool _ => true
  | _ => false

/-- A field of the parsed grammar (the external `asdl.Field`): type
reference, name, and the `*` (seq) / `?` (opt) modifier flags. -/
structure Field : Type where
  name : String
  type : String
  seq : Bool
  opt : Bool

/-- A parsed type definition: `asdl.Product` or `asdl.Sum` (variants with
their own fields, plus attributes shared by all variants). -/
inductive AsdlDef : Type where
  | prodDef (fields : List Field)
  | sumDef (variants : List (String × List Field)) (attributes : List Field)

/-- The parsed grammar module handed to `_build_classes`: a name and an
ordered collection of named type definitions. -/
structure AsdlModule : Type where
  name : String
  types : List (String × AsdlDef)

/-- A generated class: Sum bases are abstract (their `__init__` is
`invalid_init`, `_build_superclasses` adt.py 19-33); Sum-variant
constructors subclass their Sum base and carry the variant's own fields
followed by the Sum's attributes (`create_sum`, adt.py 188-198);
Products are concrete with their own field list (`create_prod`). -/
structure GenClass : Type where
  name : String
  base : Option String
  isAbstract : Bool
  fields : List Field

/-- The classes `_build_classes` generates for a module, in order. -/
def genClassesOf (m : AsdlModule) : List GenClass :=
  (m.types.map (fun nd =>
    match nd with
    | (n, .prodDef fs) => [{ name := n, base := none, isAbstract := false, fields := fs }]
    | (n, .sumDef vars attrs) =>
      { name := n, base := none, isAbstract := true, fields := ([] : List Field) } ::
        vars.map (fun v =>
          { name := v.1, base := some n, isAbstract := false, fields := v.2 ++ attrs }))).flatten

/-- Look a generated class up by its exported name. -/
def findClass (m : AsdlModule) (n : String) : Option GenClass :=
  (genClassesOf m).find? (fun c => c.name == n)

/-- `issubclass` on the generated hierarchy: a class is a subclass of
itself and of its (single, one-level) Sum base. -/
def isSubOf (m : AsdlModule) (c t : String) : Bool :=
  c == t ||
    (match findClass m c with
     | some gc => gc.base == some t
     | none => false)

/-- `isinstance(v, <class t>)` for a runtime value. -/
def isinstVal (m : AsdlModule) (v : PyVal) (t : String) : Bool :=
  match v with
  | .vInst c _ => isSubOf m c t
  | _ => false

/-- A check function stored in the CHK dict: it returns a value whose
truthiness decides acceptance, or raises. -/
def ChkFun : Type := PyVal → Except PyError PyVal

/-- The built-in checks as CHK entries (they return Python bools). -/
def builtinChk (t : String) : Option (PyVal → Bool) :=
  if t = "string" then some check_string
  else if t = "int" then some check_int
  else if t = "object" then some check_object
  else if t = "float" then some check_float
  else if t = "bool" then some check_bool
  else none

/-- The `isinstance`-against-a-declared-class check that `_build_checks`
adds for each generated superclass (adt.py 48-49, 53-55). -/
def superCheck (m : AsdlModule) (t : String) : ChkFun :=
  fun x => .ok (.vBool (isinstVal m x t))

/-- The CHK dict of `_build_checks` (adt.py 45-56): builtins, overwritten
by `ext_checks`, plus the per-declared-type `isinstance` checks (the code
asserts the declared names collide with neither, so lookup order is
immaterial in a successfully built module). -/
def envOf (m : AsdlModule) (ext : List (String × ChkFun)) (t : String) : Option ChkFun :=
  if (m.types.map Prod.fst).contains t then some (superCheck m t)
  else
    match ext.find? (fun p => p.1 == t) with
    | some p => some p.2
    | none => (builtinChk t).map (fun f => fun x => .ok (.vBool (f x)))

/-- `basic_check` qualifies a declared type's name by the module name in
its error message (adt.py 70-72). -/
def typnameOf (m : AsdlModule) (t : String) : String :=
  if (m.types.map Prod.fst).contains t then m.name ++ "." ++ t else t

/-- `basic_check` (adt.py 69-77): `if not CHK[typ](arg): raise
TypeError('expected arg i "name" to be type "typname"')`.  A missing CHK
entry is a KeyError at construction time; a check function raising
propagates its exception unchanged. -/
def basicCheck (m : AsdlModule) (ext : List (String × ChkFun)) (i : Nat)
    (fname t : String) (arg : PyVal) : Except PyError Unit :=
  match envOf m ext t with
  | none => .error (.keyError t)
  | some chk =>
    match chk arg with
    | .error e => .error e
    | .ok r =>
      if isTruthy r then .ok ()
      else .error (.typeError ("expected arg " ++ toString i ++ " \"" ++ fname ++
        "\" to be type \"" ++ typnameOf m t ++ "\""))

/-- The element loop of `seq_check` (adt.py 90-91): `basic_check` on each
element in order, under the field name suffixed with `[]`. -/
def seqElemsCheck (m : AsdlModule) (ext : List (String × ChkFun)) (i : Nat)
    (fname t : String) : List PyVal → Except PyError Unit
  | [] => .ok ()
  | x :: xs => do
    basicCheck m ext i (fname ++ "[]") t x
    seqElemsCheck m ext i fname t xs

/-- One field's composed check: `seq_check` (requires `type(arg) is
list`, then checks every element), else `opt_check` (short-circuits on
`None`), else `basic_check` (adt.py 79-106). -/
def fieldCheck (m : AsdlModule) (ext : List (String × ChkFun)) (i : Nat)
    (f : Field) (arg : PyVal) : Except PyError Unit :=
  if f.seq then
    match arg with
    | .vList xs => seqElemsCheck m ext i f.name f.type xs
    | _ => .error (.typeError ("expected arg " ++ toString i ++ " \"" ++ f.name ++
        "\" to be a list"))
  else if f.opt then
    match arg with
    | .vNone => .ok ()
    | _ => basicCheck m ext i f.name f.type arg
  else basicCheck m ext i f.name f.type arg

/-- All field checks in declaration order; the first failure raises
(adt.py 97-108).  A wrong argument count is a TypeError on the call. -/
def runChecksFrom (m : AsdlModule) (ext : List (String × ChkFun)) :
    Nat → List Field → List PyVal → Except PyError Unit
  | _, [], [] => .ok ()
  | i, f :: fs, a :: rest => do
    fieldCheck m ext i f a
    runChecksFrom m ext (i + 1) fs rest
  | _, _, _ => .error (.typeError "wrong number of arguments")

/-- The generated `__init__` (`create_initfn`, adt.py 94-128): run every
field check in order, then store the raw arguments (`self.f_i = arg_i`).
The value a check returns is used only for its truthiness and is never
stored. -/
def runInit (m : AsdlModule) (ext : List (String × ChkFun))
    (fields : List Field) (args : List PyVal) : Except PyError (List PyVal) := do
  runChecksFrom m ext 0 fields args
  pure args

/-- Constructing an instance of a generated class.  A Sum base's
`invalid_init` (adt.py 22-26) takes no argument beyond `self` and
unconditionally fails its assertion, so direct construction always
raises.  A concrete class runs the generated `__init__` and produces the
instance holding the validated (raw) argument values. -/
def constructClass (m : AsdlModule) (ext : List (String × ChkFun))
    (cls : GenClass) (args : List PyVal) : Except PyError PyVal :=
  if cls.isAbstract then
    match args with
    | [] => .error (.assertionError (cls.name ++ " should never be instantiated"))
    | _ => .error (.typeError ("invalid_init() takes 1 positional argument but more were given"))
  else
    (runInit m ext cls.fields args).map (fun vals => .vInst cls.name vals)

/-- `getattr(mod, n)(*args)`: look the exported class up and construct. -/
def constructByName (m : AsdlModule) (ext : List (String × ChkFun))
    (n : String) (args : List PyVal) : Except PyError PyVal :=
  match findClass m n with
  | some cls => constructClass m ext cls args
  | none => .error (.attributeError ("module '" ++ m.name ++ "' has no attribute '" ++ n ++ "'"))

/-! ### Concrete grammar modules used as witnesses -/

/-- The parse of `module test_object_is_not_none { foo = ( object x ) }`
(test/test_validators.py). -/
def objMod : AsdlModule :=
  ⟨"test_object_is_not_none", [("foo", .prodDef [⟨"x", "object", false, false⟩])]⟩

/-- The parse of `module test_int { foo = ( int x ) }`. -/
def intMod : AsdlModule :=
  ⟨"test_int", [("foo", .prodDef [⟨"x", "int", false, false⟩])]⟩

/-- The parse of the `simple_grammar` fixture (test/conftest.py):
`module UEq { prod = ( int x, int y )  sum = A( int x ) | B( float y ) |
C( int x, int y ) }`. -/
def simpleMod : AsdlModule :=
  ⟨"UEq",
    [("prod", .prodDef [⟨"x", "int", false, false⟩, ⟨"y", "int", false, false⟩]),
     ("sum", .sumDef
        [("A", [⟨"x", "int", false, false⟩]),
         ("B", [⟨"y", "float", false, false⟩]),
         ("C", [⟨"x", "int", false, false⟩, ⟨"y", "int", false, false⟩])]
        [])]⟩

/-! ### Claim C3 -/

/-- Claim C3 counterexample: the claim states that a bool value is never
accepted for an int-typed field, but `_builtin_checks["int"]` is
`isinstance(x, int)` and Python's `bool` subclasses `int`, so
constructing `foo(True)` against `module test_int { foo = ( int x ) }`
succeeds. -/
theorem int_field_accepts_bool_cex :
    check_int (PyVal.vBool true) = true ∧
    constructByName intMod [] "foo" [PyVal.vBool true] =
      .ok (PyVal.vInst "foo" [PyVal.vBool true]) :=
  ⟨rfl, rfl⟩

/-- Claim C3 (amended): each built-in scalar check accepts exactly the
values of the matching concrete runtime kind, except that the `int`
check also accepts bool values (Python's `bool` is a subclass of `int`);
`string`, `float` and `bool` admit no such subkind among the modelled
values, and `object` accepts every value except `None`.  The field
validator (`basic_check`) accepts exactly when the corresponding check
does. -/
theorem builtin_checks_characterization : ∀ v : PyVal,
    (check_string v = true ↔ ∃ s, v = .vStr s) ∧
    (check_int v = true ↔ ((∃ n, v = .vInt n) ∨ (∃ b, v = .vBool b))) ∧
    (check_float v = true ↔ ∃ q, v = .vFloat q) ∧
    (check_bool v = true ↔ ∃ b, v = .vBool b) ∧
    (check_object v = true ↔ v ≠ .vNone) ∧
    (basicCheck intMod [] 0 "x" "int" v = .ok () ↔ check_int v = true) ∧
    (basicCheck objMod [] 0 "x" "object" v = .ok () ↔ check_object v = true) := by
  intro v
  cases v <;>
    simp [check_string, check_int, check_float, check_bool, check_object,
      basicCheck, envOf, builtinChk, superCheck, typnameOf, isTruthy, intMod, objMod]

/-- Witness for C3's amended theorem at concrete inputs. -/
theorem builtin_checks_characterization_witness :
    check_object (PyVal.vInt 5) = true ∧ check_int (PyVal.vBool false) = true :=
  ⟨(builtin_checks_characterization (PyVal.vInt 5)).2.2.2.2.1.mpr (by simp),
   (builtin_checks_characterization (PyVal.vBool false)).2.1.mpr (Or.inr ⟨false, rfl⟩)⟩

/-! ### Claim C2 -/

/-- Claim C2: for generated instances, `x == y` holds iff both have the
identical concrete generated type and all effective fields compare equal
pairwise (with sequence fields — Python lists — compared element-wise
and order-sensitively), and hash is consistent with this equality: any
two equal values hash the same. -/
theorem generated_eq_iff_and_hash_consistent :
    (∀ (c : String) (fs : List PyVal) (d : String) (gs : List PyVal),
      pyEq (.vInst c fs) (.vInst d gs) = true ↔
        (c = d ∧ List.Forall₂ (fun a b => pyEq a b = true) fs gs)) ∧
    (∀ xs ys : List PyVal,
      pyEq (.vList xs) (.vList ys) = true ↔
        List.Forall₂ (fun a b => pyEq a b = true) xs ys) ∧
    (∀ x y : PyVal, pyEq x y = true → pyHash x = pyHash y) := by
  refine ⟨?_, ?_, ?_⟩
  · intro c fs d gs
    simp [pyEq, pyEqList_iff_forall₂]
  · intro xs ys
    simpa [pyEq] using pyEqList_iff_forall₂ xs ys
  · intro x y h
    exact pyHash_canon x y ((pyEq_canon x y).mp h)

/-- Witness for C2 at concrete inputs: `prod(0, 1)` compares equal to
`prod(False, 1)` (bool/int cross-kind field equality) and their hashes
agree. -/
theorem generated_eq_iff_and_hash_consistent_witness :
    pyEq (PyVal.vInst "prod" [PyVal.vInt 0, PyVal.vInt 1])
        (PyVal.vInst "prod" [PyVal.vBool false, PyVal.vInt 1]) = true ∧
    pyHash (PyVal.vInst "prod" [PyVal.vInt 0, PyVal.vInt 1]) =
      pyHash (PyVal.vInst "prod" [PyVal.vBool false, PyVal.vInt 1]) :=
  ⟨(generated_eq_iff_and_hash_consistent.1 _ _ _ _).mpr
      ⟨rfl, by constructor; · decide
               constructor; · decide
               constructor⟩,
   generated_eq_iff_and_hash_consistent.2.2 _ _ (by decide)⟩

/-! ### Claim C9 -/

/-- Claim C9: for a Sum type definition, the generated base class is
abstract — constructing it directly always fails (its `__init__` is
`invalid_init`) — while constructing a declared Constructor with
arguments that pass validation succeeds, and the result is an instance
of the Sum base type. -/
theorem sum_base_abstract_ctors_concrete
    (m : AsdlModule) (ext : List (String × ChkFun)) (t cn : String)
    (vars : List (String × List Field)) (attrs cfs : List Field)
    (hsum : (t, AsdlDef.sumDef vars attrs) ∈ m.types)
    (hbase : findClass m t = some ⟨t, none, true, []⟩)
    (hctor : (cn, cfs) ∈ vars)
    (hfind : findClass m cn = some ⟨cn, some t, false, cfs ++ attrs⟩) :
    (∀ args : List PyVal, ∃ e, constructByName m ext t args = .error e) ∧
    (∀ args : List PyVal, runChecksFrom m ext 0 (cfs ++ attrs) args = .ok () →
      constructByName m ext cn args = .ok (PyVal.vInst cn args) ∧
      isinstVal m (PyVal.vInst cn args) t = true) := by
  constructor
  · intro args
    cases args <;> simp [constructByName, hbase, constructClass]
  · intro args h
    constructor
    · simp [constructByName, hfind, constructClass, runInit, h, Except.map]
    · simp [isinstVal, isSubOf, hfind]

/-- Witness for C9 on the `simple_grammar` fixture: `sum()` fails,
`A(3)` succeeds and is an instance of the `sum` base. -/
theorem sum_base_abstract_ctors_concrete_witness :
    (∃ e, constructByName simpleMod [] "sum" [] = .error e) ∧
    constructByName simpleMod [] "A" [PyVal.vInt 3] =
      .ok (PyVal.vInst "A" [PyVal.vInt 3]) ∧
    isinstVal simpleMod (PyVal.vInst "A" [PyVal.vInt 3]) "sum" = true := by
  have h := sum_base_abstract_ctors_concrete simpleMod [] "sum" "A"
    [("A", [⟨"x", "int", false, false⟩]),
     ("B", [⟨"y", "float", false, false⟩]),
     ("C", [⟨"x", "int", false, false⟩, ⟨"y", "int", false, false⟩])]
    [] [⟨"x", "int", false, false⟩]
    (by simp [simpleMod]) rfl (by simp) rfl
  exact ⟨h.1 [], (h.2 [PyVal.vInt 3] rfl).1, (h.2 [PyVal.vInt 3] rfl).2⟩

/-! ### Validators from validators.py, and the C7/C8 evaluations -/

/-- Python's `type(obj).__qualname__` for the modelled values, as used in
`ValidationError.__str__` (validators.py 19-25). -/
def pyTypeName : PyVal → String
  | .vNone => "NoneType"
  | .vBool _ => "bool"
  | .vInt _ => "int"
  | .vFloat _ => "float"
  | .vStr _ => "str"
  | .vList _ => "list"
  | .vInst c _ => c

/-- `instance_of(typ, convert=...)` from validators.py lines 27-43: a
non-None instance of `typ` is returned unchanged; otherwise, with
`convert=True`, `typ(obj)` is returned (its exception propagating);
otherwise `ValidationError(typ, type(obj))` is raised. -/
def instance_of (typName : String) (isInst : PyVal → Bool)
    (convert : Bool) (typCall : PyVal → Except PyError PyVal) : ChkFun :=
  fun obj =>
    match obj with
    | .vNone => .error (.validationError typName (pyTypeName PyVal.vNone))
    | v =>
      if isInst v then .ok v
      else if convert then typCall v
      else .error (.validationError typName (pyTypeName v))

/-- The `FooOrBar` enum of test/test_validators.py `test_enum_type`:
calling it on "foo"/"bar" yields the member, anything else raises
ValueError.  A member is modelled as an instance tagged "FooOrBar". -/
def fooOrBarCall : PyVal → Except PyError PyVal
  | .vStr "foo" => .ok (.vInst "FooOrBar" [.vStr "foo"])
  | .vStr "bar" => .ok (.vInst "FooOrBar" [.vStr "bar"])
  | _ => .error (.valueError "not a valid FooOrBar")

/-- `isinstance(x, FooOrBar)`. -/
def isFooOrBar : PyVal → Bool
  | .vInst "FooOrBar" _ => true
  | _ => false

/-- `instance_of(FooOrBar, convert=True)`, the ext check of
`test_enum_type`. -/
def fooOrBarCheck : ChkFun := instance_of "FooOrBar" isFooOrBar true fooOrBarCall

/-- The parse of `module test_enum_type { foo = ( name* x ) }`. -/
def enumMod : AsdlModule :=
  ⟨"test_enum_type", [("foo", .prodDef [⟨"x", "name", true, false⟩])]⟩

/-! ### Claim C7 -/

/-- Claim C7 evaluation at the failing input
(test/test_validators.py `test_object_is_not_none`): `foo(None)` does
fail on the (first) failing field and the error propagates unchanged,
but it is a plain `TypeError` whose message carries only the expected
type — not a `ValidationError{expected, actual}`; the repository's own
test expects the message "expected: object, actual: NoneType". -/
theorem construct_raises_plain_typeerror :
    constructByName objMod [] "foo" [PyVal.vNone] =
      .error (.typeError "expected arg 0 \"x\" to be type \"object\"") ∧
    decide (PyError.typeError "expected arg 0 \"x\" to be type \"object\"" =
      PyError.validationError "object" (pyTypeName PyVal.vNone)) = false :=
  ⟨rfl, by decide⟩

/-! ### Claim C8 -/

/-- Claim C8 evaluation at the failing input (test/test_validators.py
`test_enum_type`): the ext validator normalizes the string "foo" into
the enum member `FooOrBar.foo`, but the generated `__init__` uses the
check's return value only for its truthiness and stores the raw
arguments (`self.x = arg_0`), so the constructed instance holds the
strings, not the normalized members — and a raw string does not compare
equal to the member the claim says should be stored. -/
theorem construct_stores_raw_not_normalized :
    fooOrBarCheck (PyVal.vStr "foo") =
      .ok (PyVal.vInst "FooOrBar" [PyVal.vStr "foo"]) ∧
    constructByName enumMod [("name", fooOrBarCheck)] "foo"
        [PyVal.vList [PyVal.vStr "foo", PyVal.vStr "bar", PyVal.vStr "bar"]] =
      .ok (PyVal.vInst "foo"
        [PyVal.vList [PyVal.vStr "foo", PyVal.vStr "bar", PyVal.vStr "bar"]]) ∧
    pyEq (PyVal.vStr "foo") (PyVal.vInst "FooOrBar" [PyVal.vStr "foo"]) = false :=
  ⟨rfl, rfl, rfl⟩

/-! ### Claim C1 -/

/-- Attribute assignment on a generated instance.  `create_prod` assigns
`cls.__slots__` only after the class object has been created by `type()`
(adt.py line 170), which does not constrain instances, and the classes
built by `create_sum_constructor` inherit from bases without `__slots__`
and install no `__setattr__`/frozen machinery — so Python's default
attribute assignment applies to every generated instance: it succeeds
and replaces the named field's value. -/
def setattrGen (cls : GenClass) (vals : List PyVal) (attr : String)
    (v : PyVal) : PyVal :=
  .vInst cls.name
    ((cls.fields.zip vals).map (fun fc => if fc.1.name == attr then v else fc.2))

/-- Claim C1 evaluation at the failing input
(test/test_immutability.py `test_immutable_prod`): `obj = prod(3, 4);
obj.x = 10` succeeds and observably changes the instance, where the
claim (and the repository's own test, which expects
`FrozenInstanceError`) requires the attempt to fail. -/
theorem setattr_succeeds_and_mutates :
    findClass simpleMod "prod" = some ⟨"prod", none, false,
      [⟨"x", "int", false, false⟩, ⟨"y", "int", false, false⟩]⟩ ∧
    constructByName simpleMod [] "prod" [PyVal.vInt 3, PyVal.vInt 4] =
      .ok (PyVal.vInst "prod" [PyVal.vInt 3, PyVal.vInt 4]) ∧
    setattrGen ⟨"prod", none, false,
        [⟨"x", "int", false, false⟩, ⟨"y", "int", false, false⟩]⟩
        [PyVal.vInt 3, PyVal.vInt 4] "x" (PyVal.vInt 10) =
      PyVal.vInst "prod" [PyVal.vInt 10, PyVal.vInt 4] ∧
    pyEq (PyVal.vInst "prod" [PyVal.vInt 10, PyVal.vInt 4])
        (PyVal.vInst "prod" [PyVal.vInt 3, PyVal.vInt 4]) = false :=
  ⟨rfl, rfl, rfl, rfl⟩

/-! ### The ADT entry point: module allocation and sys.modules (C4, C10) -/

/-- Dictionary assignment `tbl[k] = v`: any previous binding of the key
is replaced, other bindings are kept. -/
def setAssoc (tbl : List (String × Nat)) (k : String) (v : Nat) :
    List (String × Nat) :=
  match tbl with
  | [] => [(k, v)]
  | p :: rest => if p.1 == k then (k, v) :: rest else p :: setAssoc rest k v

/-- Interpreter-level state relevant to `ADT`: the global `sys.modules`
table (module name → module object identity) and an allocation counter
supplying fresh object identities. -/
structure Interp : Type where
  sysModules : List (String × Nat)
  nextId : Nat

/-- `ADT(asdl_str)` via `_build_classes` (adt.py 59-65, 211-284): a brand
new `ModuleType` object is allocated unconditionally — no code path in
`ADT` looks up a previously built module — and is registered in
`sys.modules` under the grammar's module name by
`sys.modules[asdl_mod.name] = mod` (adt.py 65), replacing whatever was
registered there.  The returned Nat is the new module's identity. -/
def ADT_run (m : AsdlModule) (st : Interp) : Nat × Interp :=
  (st.nextId, ⟨setAssoc st.sysModules m.name st.nextId, st.nextId + 1⟩)

/-- The parse of `module cache_test { foo = ( int bar ) }`
(test/test_module_caching.py). -/
def cacheTestMod : AsdlModule :=
  ⟨"cache_test", [("foo", .prodDef [⟨"bar", "int", false, false⟩])]⟩

theorem lookup_setAssoc (tbl : List (String × Nat)) (k : String) (v : Nat) :
    List.lookup k (setAssoc tbl k v) = some v := by
  induction tbl with
  | nil => simp [setAssoc, List.lookup]
  | cons p rest ih =>
    by_cases h : p.1 = k
    · simp [setAssoc, h, List.lookup]
    · simp only [setAssoc]
      rw [if_neg (by simpa using h)]
      simp only [List.lookup]
      rw [show (k == p.1) = false from beq_eq_false_iff_ne.mpr (Ne.symm h)]
      exact ih

/-! ### Claim C4 -/

/-- Claim C4 evaluation at the failing input
(test/test_module_caching.py): two `ADT` calls whose grammars carry the
module name "cache_test" return module objects with distinct identities
(0, then 1) — `ADT` allocates a fresh module unconditionally — whereas
the claim (and the repository's own test, `grammar_a is grammar_b`)
requires the second call to return the first module by identity. -/
theorem adt_builds_new_module_each_call :
    (ADT_run cacheTestMod ⟨[], 0⟩).1 = 0 ∧
    (ADT_run cacheTestMod (ADT_run cacheTestMod ⟨[], 0⟩).2).1 = 1 :=
  ⟨rfl, rfl⟩

/-! ### Claim C10 -/

/-- Claim C10: every `ADT` call registers the newly generated module in
the interpreter's global `sys.modules` table under the grammar's module
name, overwriting any previous binding under that name — a side effect
of every build, whatever the prior state of the table. -/
theorem adt_registers_module_in_sys_modules :
    ∀ (m : AsdlModule) (st : Interp),
      List.lookup m.name (ADT_run m st).2.sysModules = some (ADT_run m st).1 := by
  intro m st
  simpa [ADT_run] using lookup_setAssoc st.sysModules m.name st.nextId

/-! ### Memoization (`memo` / `_add_memoization`, adt.py 287-379)

The memoized `__new__` runs against object identities, so this layer
models arguments together with identities, a per-class cache, and an
allocation counter.  A `WeakValueDictionary` entry exists exactly while
the instance is alive; the claims below are about instances with
overlapping lifetimes, during which the persistent map used here behaves
identically (eviction of dead entries is not modelled). -/

/-- An argument passed to a memoized constructor's `__new__`: a plain
value, a generated-class instance (its object identity plus its value),
or a list of arguments (for a sequence field). -/
inductive Arg : Type where
  | sval (v : PyVal)
  | inst (objId : Nat) (val : PyVal)
  | alist (xs : List Arg)

mutual

/-- The underlying Python value of an argument. -/
def argVal : Arg → PyVal
  | .sval v => v
  | .inst _ v => v
  | .alist xs => .vList (argValList xs)

/-- The underlying values of a list of arguments. -/
def argValList : List Arg → List PyVal
  | [] => []
  | a :: rest => argVal a :: argValList rest

end

/-- The keymap of `_add_memoization` (adt.py 296-303): `_builtin_keymap`
maps each of the five built-in scalar names to the identity function
(key by value), `ext_key` entries overwrite it, and every declared type
name maps to `id` (key by object identity), overwriting both.  A name in
none of the three raises KeyError when the generated key expression
evaluates `K['typ']`.  (The `id()` of a non-instance argument in a
declared-type slot is not modelled — such an argument would be rejected
by validation; claim C5 is about validated constructions.) -/
def pointKey (m : AsdlModule) (extKey : List (String × (PyVal → PyVal)))
    (t : String) (a : Arg) : Except PyError PyVal :=
  if (m.types.map Prod.fst).contains t then
    .ok (match a with
      | .inst i _ => .vInt (i : Int)
      | _ => .vInt 0)
  else
    match extKey.find? (fun p => p.1 == t) with
    | some p => .ok (p.2 (argVal a))
    | none => if (builtinChk t).isSome then .ok (argVal a) else .error (.keyError t)

/-- The element keys of `create_listkey` (adt.py 305-307):
`tuple( K[typ](i) for i in arg )`. -/
def seqKeys (m : AsdlModule) (extKey : List (String × (PyVal → PyVal)))
    (t : String) : List Arg → Except PyError (List PyVal)
  | [] => .ok []
  | a :: rest => do
    let k ← pointKey m extKey t a
    let ks ← seqKeys m extKey t rest
    pure (k :: ks)

/-- One field's contribution to the memoization key: `create_listkey`
for a sequence field, `create_optkey` (`None if arg is None else
K[typ](arg)`, adt.py 309-310) for an optional field, else the point
key. -/
def fieldKey (m : AsdlModule) (extKey : List (String × (PyVal → PyVal)))
    (f : Field) (a : Arg) : Except PyError PyVal :=
  if f.seq then
    match a with
    | .alist xs => (seqKeys m extKey f.type xs).map PyVal.vList
    | _ => .error (.typeError ("'" ++ pyTypeName (argVal a) ++ "' object is not iterable"))
  else if f.opt then
    match a with
    | .sval .vNone => .ok .vNone
    | _ => pointKey m extKey f.type a
  else pointKey m extKey f.type a

/-- The per-field key values, in field order (adt.py 318-325). -/
def keyParts (m : AsdlModule) (extKey : List (String × (PyVal → PyVal))) :
    List Field → List Arg → Except PyError (List PyVal)
  | [], [] => .ok []
  | f :: fs, a :: rest => do
    let k ← fieldKey m extKey f a
    let ks ← keyParts m extKey fs rest
    pure (k :: ks)
  | _, _ => .error (.typeError "wrong number of arguments")

/-- The memoization key: the tuple of the per-field key values
(`key = (...)`, adt.py 331). -/
def keyOfArgs (m : AsdlModule) (extKey : List (String × (PyVal → PyVal)))
    (fields : List Field) (args : List Arg) : Except PyError PyVal :=
  (keyParts m extKey fields args).map PyVal.vList

/-- The per-class `_memo_cache` (adt.py 342) plus the allocation counter
supplying fresh object identities. -/
structure MemoState : Type where
  cache : List (PyVal × Nat)
  nextId : Nat

/-- `T._memo_cache.get(key)`: Python dict lookup compares keys with
`==`, modelled by `pyEq`. -/
def lookupKey (cache : List (PyVal × Nat)) (k : PyVal) : Option Nat :=
  (cache.find? (fun p => pyEq p.1 k)).map (fun p => p.2)

/-- The generated `__new__` (`create_newfn`, adt.py 312-343): on a cache
hit return the cached object, on a miss allocate a fresh object and
publish it under the key.  (`if val == None` is True exactly on a miss:
a cached instance never compares equal to `None` under its generated
`__eq__`.) -/
def memoNew (st : MemoState) (k : PyVal) : Nat × MemoState :=
  match lookupKey st.cache k with
  | some i => (i, st)
  | none => (st.nextId, ⟨(k, st.nextId) :: st.cache, st.nextId + 1⟩)

/-- The full memoized `__new__`: compute the key from the raw arguments
(adt.py 330-331), then consult the per-class cache. -/
def memoConstructNew (m : AsdlModule) (extKey : List (String × (PyVal → PyVal)))
    (fields : List Field) (st : MemoState) (args : List Arg) :
    Except PyError (Nat × MemoState) :=
  (keyOfArgs m extKey fields args).map (fun k => memoNew st k)

/-- Default `object.__new__` for a non-memoized class: always a fresh
object. -/
def plainNew (st : MemoState) : Nat × MemoState :=
  (st.nextId, { st with nextId := st.nextId + 1 })

/-- Invariant of a memoization cache as the code maintains it: every
cached identity was allocated (is below the counter), and identities
determine their keys up to `==` (an object is published under exactly
one key). -/
def MemoInv (st : MemoState) : Prop :=
  (∀ p ∈ st.cache, p.2 < st.nextId) ∧
  (∀ p ∈ st.cache, ∀ q ∈ st.cache, p.2 = q.2 → pyEq p.1 q.1 = true)

/-! ### Claim C5 -/

/-- The parse of the memo fixture grammar (test/test_memoization.py). -/
def memoMod : AsdlModule :=
  ⟨"memo",
    [("memo_prod", .prodDef [⟨"x", "int", false, false⟩, ⟨"y", "int", false, false⟩]),
     ("memo_sum", .sumDef [("A", []), ("B", [⟨"val", "int", false, false⟩])] []),
     ("normal_prod", .prodDef [⟨"x", "int", false, false⟩, ⟨"y", "int", false, false⟩]),
     ("normal_sum", .sumDef [("C", []), ("D", [⟨"val", "int", false, false⟩])] []),
     ("partial_sum", .sumDef [("E", [⟨"val", "int", false, false⟩]), ("F", [])] [])]⟩

/-- Claim C5: a memoized constructor returns the identical object for
equal key tuples and distinct objects for unequal key tuples; a
non-memoized constructor returns a fresh (distinct) but equal-valued
object each time; the cache key is the tuple of per-field key values, a
declared-type (nested instance) field keying by object identity and a
built-in scalar field keying by value. -/
theorem memoized_identity_semantics :
    (∀ (st : MemoState) (k : PyVal),
      (memoNew (memoNew st k).2 k).1 = (memoNew st k).1) ∧
    (∀ (st : MemoState) (k1 k2 : PyVal), MemoInv st → pyEq k1 k2 = false →
      (memoNew (memoNew st k1).2 k2).1 ≠ (memoNew st k1).1) ∧
    (∀ st : MemoState, (plainNew (plainNew st).2).1 ≠ (plainNew st).1) ∧
    (∀ (c : String) (vs : List PyVal), pyEq (.vInst c vs) (.vInst c vs) = true) ∧
    (∀ (m : AsdlModule) (ek : List (String × (PyVal → PyVal)))
       (fields : List Field) (args : List Arg),
      keyOfArgs m ek fields args = (keyParts m ek fields args).map PyVal.vList) ∧
    (∀ (m : AsdlModule) (ek : List (String × (PyVal → PyVal)))
       (f : Field) (i : Nat) (v : PyVal),
      f.seq = false → f.opt = false →
      (m.types.map Prod.fst).contains f.type = true →
      fieldKey m ek f (.inst i v) = .ok (.vInt (i : Int))) ∧
    (∀ (m : AsdlModule) (f : Field) (v : PyVal),
      f.seq = false → f.opt = false →
      (m.types.map Prod.fst).contains f.type = false →
      (builtinChk f.type).isSome = true →
      fieldKey m [] f (.sval v) = .ok v) := by
  refine ⟨?_, ?_, ?_, ?_, ?_, ?_, ?_⟩
  · intro st k
    cases h : lookupKey st.cache k with
    | some i => simp [memoNew, h]
    | none =>
      have h2 : memoNew st k = (st.nextId, ⟨(k, st.nextId) :: st.cache, st.nextId + 1⟩) := by
        simp [memoNew, h]
      rw [h2]
      simp [memoNew, lookupKey, List.find?, pyEq_refl]
  · intro st k1 k2 hinv hne
    obtain ⟨hbound, hfun⟩ := hinv
    cases h1 : lookupKey st.cache k1 with
    | some i1 =>
      obtain ⟨p, hp, hpi⟩ := Option.map_eq_some'.mp h1
      have hpmem := List.mem_of_find?_eq_some hp
      have hpeq : pyEq p.1 k1 = true := by simpa using List.find?_some hp
      simp only [memoNew, h1]
      cases h2 : lookupKey st.cache k2 with
      | some i2 =>
        obtain ⟨q, hq, hqi⟩ := Option.map_eq_some'.mp h2
        have hqmem := List.mem_of_find?_eq_some hq
        have hqeq : pyEq q.1 k2 = true := by simpa using List.find?_some hq
        simp only
        intro hcontra
        have : p.2 = q.2 := by omega
        have hpq := hfun p hpmem q hqmem this
        have : pyEq k1 k2 = true :=
          pyEq_trans (pyEq_symm hpeq) (pyEq_trans hpq hqeq)
        simp [this] at hne
      | none =>
        have : i1 < st.nextId := by
          have := hbound p hpmem; omega
        simp only
        omega
    | none =>
      simp only [memoNew, h1]
      have hhead : lookupKey ((k1, st.nextId) :: st.cache) k2 = lookupKey st.cache k2 := by
        simp [lookupKey, List.find?, hne]
      cases h2 : lookupKey st.cache k2 with
      | some i2 =>
        obtain ⟨q, hq, hqi⟩ := Option.map_eq_some'.mp h2
        have hqmem := List.mem_of_find?_eq_some hq
        have : i2 < st.nextId := by
          have := hbound q hqmem; omega
        simp only [memoNew, hhead, h2]
        omega
      | none =>
        simp only [memoNew, hhead, h2]
        omega
  · intro st
    simp [plainNew]
  · intro c vs
    exact pyEq_refl _
  · intro m ek fields args
    rfl
  · intro m ek f i v hseq hopt hcont
    simp only [fieldKey, hseq, hopt, pointKey, hcont]
    simp
  · intro m f v hseq hopt hcont hbuiltin
    simp only [fieldKey, hseq, hopt, pointKey, hcont, hbuiltin, List.find?]
    simp [argVal]

/-- Witness for C5 on the memo fixture: `memo_prod(3, 4)` twice yields
the identical object, `memo_prod(3, 5)` a distinct one;
`normal_prod(3, 4)` twice yields distinct but equal objects; int fields
key by value and a declared-type field keys by identity. -/
theorem memoized_identity_semantics_witness :
    (memoNew (memoNew ⟨[], 0⟩ (PyVal.vList [PyVal.vInt 3, PyVal.vInt 4])).2
        (PyVal.vList [PyVal.vInt 3, PyVal.vInt 4])).1 =
      (memoNew ⟨[], 0⟩ (PyVal.vList [PyVal.vInt 3, PyVal.vInt 4])).1 ∧
    (memoNew (memoNew ⟨[], 0⟩ (PyVal.vList [PyVal.vInt 3, PyVal.vInt 4])).2
        (PyVal.vList [PyVal.vInt 3, PyVal.vInt 5])).1 ≠
      (memoNew ⟨[], 0⟩ (PyVal.vList [PyVal.vInt 3, PyVal.vInt 4])).1 ∧
    (plainNew (plainNew ⟨[], 0⟩).2).1 ≠ (plainNew ⟨[], 0⟩).1 ∧
    pyEq (.vInst "normal_prod" [PyVal.vInt 3, PyVal.vInt 4])
      (.vInst "normal_prod" [PyVal.vInt 3, PyVal.vInt 4]) = true ∧
    fieldKey memoMod [] ⟨"p", "memo_prod", false, false⟩
        (.inst 7 (.vInst "memo_prod" [PyVal.vInt 1, PyVal.vInt 2])) =
      .ok (.vInt 7) ∧
    fieldKey memoMod [] ⟨"x", "int", false, false⟩ (.sval (PyVal.vInt 3)) =
      .ok (PyVal.vInt 3) :=
  ⟨memoized_identity_semantics.1 ⟨[], 0⟩ _,
   memoized_identity_semantics.2.1 ⟨[], 0⟩ _ _
     (by constructor <;> simp [MemoInv]) (by decide),
   memoized_identity_semantics.2.2.1 ⟨[], 0⟩,
   memoized_identity_semantics.2.2.2.1 "normal_prod" _,
   memoized_identity_semantics.2.2.2.2.2.1 memoMod [] ⟨"p", "memo_prod", false, false⟩ 7 _
     rfl rfl (by decide),
   memoized_identity_semantics.2.2.2.2.2.2 memoMod ⟨"x", "int", false, false⟩ _
     rfl rfl (by decide) rfl⟩

/-! ### Claim C6 — functional update (spec-modelled) -/

/-- Modelled from the spec: the `update(instance, partial_fields)`
operation is missing from src/src/asdl_adt/adt.py (only its tests,
test/test_update.py, exercise it).  Per the spec, "for every effective
field, [update] uses the supplied override if present else the
instance's current value".  This computes that merged argument list. -/
def updateArgs (fields : List Field) (cur : List PyVal)
    (ov : List (String × PyVal)) : List PyVal :=
  (fields.zip cur).map (fun fc =>
    match ov.find? (fun p => p.1 == fc.1.name) with
    | some p => p.2
    | none => fc.2)

/-- Modelled from the spec: `update` "re-invokes the *same* construction
path (including validation and any memoization) used for ordinary
construction" on the merged arguments. -/
def updateRun (m : AsdlModule) (ext : List (String × ChkFun)) (cls : GenClass)
    (cur : List PyVal) (ov : List (String × PyVal)) : Except PyError PyVal :=
  constructClass m ext cls (updateArgs cls.fields cur ov)

theorem map_snd_zip_eq : ∀ (fs : List Field) (cs : List PyVal),
    fs.length = cs.length → (fs.zip cs).map (fun fc => fc.2) = cs := by
  intro fs
  induction fs with
  | nil => intro cs h; cases cs <;> simp_all
  | cons f fs' ih =>
    intro cs h
    cases cs with
    | nil => simp at h
    | cons c cs' =>
      simp only [List.zip_cons_cons, List.map_cons, List.cons.injEq, true_and]
      exact ih cs' (by simpa using h)

theorem runChecksFrom_length (m : AsdlModule) (ext : List (String × ChkFun)) :
    ∀ (i : Nat) (fields : List Field) (args : List PyVal),
      runChecksFrom m ext i fields args = .ok () → args.length = fields.length := by
  intro i fields
  induction fields generalizing i with
  | nil =>
    intro args h
    cases args with
    | nil => rfl
    | cons a rest => simp [runChecksFrom] at h
  | cons f fs ih =>
    intro args h
    cases args with
    | nil => simp [runChecksFrom] at h
    | cons a rest =>
      simp only [runChecksFrom] at h
      cases hfc : fieldCheck m ext i f a with
      | error e => rw [hfc] at h; simp [Bind.bind, Except.bind] at h
      | ok u =>
        rw [hfc] at h
        simp only [Bind.bind, Except.bind] at h
        simpa using ih (i + 1) rest h

theorem updateArgs_empty (fields : List Field) (cur : List PyVal)
    (h : fields.length = cur.length) : updateArgs fields cur [] = cur := by
  simp only [updateArgs, List.find?]
  exact map_snd_zip_eq fields cur h

theorem updateArgs_cons (f : Field) (fs : List Field) (c : PyVal)
    (cs : List PyVal) (ov : List (String × PyVal)) :
    updateArgs (f :: fs) (c :: cs) ov =
      (match ov.find? (fun p => p.1 == f.name) with
       | some p => p.2
       | none => c) :: updateArgs fs cs ov := rfl

theorem updateArgs_single : ∀ (pre post : List Field) (fj : Field)
    (cpre cpost : List PyVal) (cj v : PyVal),
    pre.length = cpre.length → post.length = cpost.length →
    (∀ f ∈ pre, f.name ≠ fj.name) → (∀ f ∈ post, f.name ≠ fj.name) →
    updateArgs (pre ++ fj :: post) (cpre ++ cj :: cpost) [(fj.name, v)] =
      cpre ++ v :: cpost := by
  intro pre
  induction pre with
  | nil =>
    intro post fj cpre cpost cj v hpre hpost hnpre hnpost
    cases cpre with
    | cons c cs => simp at hpre
    | nil =>
      simp only [List.nil_append, updateArgs_cons]
      have hhead : List.find? (fun p => p.1 == fj.name) [(fj.name, v)] =
          some (fj.name, v) := by
        simp [List.find?]
      rw [hhead]
      have htail : updateArgs post cpost [(fj.name, v)] = cpost := by
        have hcong : updateArgs post cpost [(fj.name, v)] =
            (post.zip cpost).map (fun fc => fc.2) := by
          simp only [updateArgs]
          apply List.map_congr_left
          intro fc hfc
          have hmem : fc.1 ∈ post := (List.of_mem_zip hfc).1
          have hne : ((fj.name, v).1 == fc.1.name) = false :=
            beq_eq_false_iff_ne.mpr (Ne.symm (hnpost fc.1 hmem))
          simp [List.find?, hne]
        rw [hcong]
        exact map_snd_zip_eq post cpost hpost
      rw [htail]
  | cons p pre' ih =>
    intro post fj cpre cpost cj v hpre hpost hnpre hnpost
    cases cpre with
    | nil => simp at hpre
    | cons c cs =>
      have hp : List.find? (fun q => q.1 == p.name) [(fj.name, v)] = none := by
        simp [List.find?, beq_eq_false_iff_ne.mpr (Ne.symm (hnpre p (by simp)))]
      simp only [List.cons_append, updateArgs_cons, hp]
      exact congrArg (fun t => c :: t)
        (ih post fj cs cpost cj v (by simpa using hpre) hpost
          (fun f hf => hnpre f (by simp [hf])) hnpost)

/-- Claim C6 (spec-modelled): `update(x, {}) == x`; overriding a single
field `f` with `v` yields an instance whose field `f` equals `v` and
whose other effective fields equal `x`'s; `update` re-invokes the very
construction path used for ordinary construction (validation included),
so for memoized types the allocation consults the same cache and a hit
returns the pre-existing canonical instance. -/
theorem update_laws :
    (∀ (m : AsdlModule) (ext : List (String × ChkFun)) (cls : GenClass)
       (cur : List PyVal),
      constructClass m ext cls cur = .ok (.vInst cls.name cur) →
      updateRun m ext cls cur [] = .ok (.vInst cls.name cur) ∧
      pyEq (.vInst cls.name cur) (.vInst cls.name cur) = true) ∧
    (∀ (pre post : List Field) (fj : Field) (cpre cpost : List PyVal) (cj v : PyVal),
      pre.length = cpre.length → post.length = cpost.length →
      (∀ f ∈ pre, f.name ≠ fj.name) → (∀ f ∈ post, f.name ≠ fj.name) →
      updateArgs (pre ++ fj :: post) (cpre ++ cj :: cpost) [(fj.name, v)] =
        cpre ++ v :: cpost) ∧
    (∀ (m : AsdlModule) (ext : List (String × ChkFun)) (cls : GenClass)
       (cur : List PyVal) (ov : List (String × PyVal)),
      updateRun m ext cls cur ov = constructClass m ext cls (updateArgs cls.fields cur ov)) ∧
    (∀ (st : MemoState) (k : PyVal) (i : Nat),
      lookupKey st.cache k = some i → (memoNew st k).1 = i) := by
  refine ⟨?_, updateArgs_single, ?_, ?_⟩
  · intro m ext cls cur h
    have habs : cls.isAbstract = false := by
      by_contra hc
      rw [Bool.not_eq_false] at hc
      cases cur <;> simp [constructClass, hc] at h
    have hrc : runChecksFrom m ext 0 cls.fields cur = .ok () := by
      cases hrc : runChecksFrom m ext 0 cls.fields cur with
      | ok u => cases u; rfl
      | error e =>
        simp [constructClass, habs, runInit, Bind.bind, Except.bind, hrc, Except.map] at h
    have hlen := runChecksFrom_length m ext 0 cls.fields cur hrc
    constructor
    · rw [updateRun, updateArgs_empty cls.fields cur hlen.symm]
      exact h
    · exact pyEq_refl _
  · intro m ext cls cur ov
    rfl
  · intro st k i h
    simp [memoNew, h]

/-- Witness for C6 on the fixtures of test/test_update.py:
`C(3, 4).update(y=6)` — the merged argument list is `[3, 6]`, the empty
update reproduces `C(3, 4)`, and a cached key is returned by identity
from the memo cache. -/
theorem update_laws_witness :
    updateRun simpleMod [] ⟨"C", some "sum", false,
        [⟨"x", "int", false, false⟩, ⟨"y", "int", false, false⟩]⟩
        [PyVal.vInt 3, PyVal.vInt 4] [] =
      .ok (PyVal.vInst "C" [PyVal.vInt 3, PyVal.vInt 4]) ∧
    updateArgs [⟨"x", "int", false, false⟩, ⟨"y", "int", false, false⟩]
        [PyVal.vInt 3, PyVal.vInt 4] [("y", PyVal.vInt 6)] =
      [PyVal.vInt 3, PyVal.vInt 6] ∧
    (memoNew ⟨[(PyVal.vList [PyVal.vInt 3, PyVal.vInt 6], 5)], 6⟩
        (PyVal.vList [PyVal.vInt 3, PyVal.vInt 6])).1 = 5 :=
  ⟨(update_laws.1 simpleMod [] ⟨"C", some "sum", false,
      [⟨"x", "int", false, false⟩, ⟨"y", "int", false, false⟩]⟩
      [PyVal.vInt 3, PyVal.vInt 4] rfl).1,
   update_laws.2.1 [⟨"x", "int", false, false⟩] []
     ⟨"y", "int", false, false⟩ [PyVal.vInt 3] [] (PyVal.vInt 4) (PyVal.vInt 6)
     rfl rfl (by simp) (by simp),
   update_laws.2.2.2 ⟨[(PyVal.vList [PyVal.vInt 3, PyVal.vInt 6], 5)], 6⟩
     (PyVal.vList [PyVal.vInt 3, PyVal.vInt 6]) 5 (by simp [lookupKey, List.find?, pyEq_refl])⟩

end AsdlAdt
